import Mathlib

/-!
Shallow embedding of the Airtable MCP worker (`src/index.ts`, all-in-one
snapshot): the table name → table id resolver with its process-wide cache
(`refreshTableCache`, `resolveTableId`), the search-formula builder
(`escapeForFormula`, `buildFormulaFromFields`, `buildSearchFormula`), the
single-table search (`searchOneTable`) and the federated all-tables search
loop of the `search` tool.

Remote I/O is modelled by passing the JSON bodies the code would receive as
explicit arguments: a metadata-listing response is an
`Option (List TableMeta)` (`none` models a body whose `tables` member is not
an array), a record-listing response is a `ListResponse`.  Stateful code
(the module-level `tableCache` variable) is modelled by explicit state
passing: `resolveTableId` receives the cache value before the call and
returns the cache value after the call together with the number of
`refreshTableCache` invocations (each invocation performs exactly one
network call in the source).  JavaScript string truthiness (`""` is falsy)
is modelled by `jsTruthy`; a JS object used as a string map is modelled as
an association list where the latest assignment wins (`objGet`).
-/

namespace AirtableMcp

/-- JS truthiness of a possibly-absent string: `undefined` and `""` are
falsy, every other string is truthy. -/
def jsTruthy (o : Option String) : Option String :=
  match o with
  | some s => if s = "" then none else some s
  | none => none

/-- JS `a || b` on possibly-absent strings. -/
def jsOrStr (a b : Option String) : Option String :=
  match jsTruthy a with
  | some s => some s
  | none => b

/-- JS `a ?? b` (nullish coalescing) on possibly-absent strings. -/
def jsNullish (a b : Option String) : Option String :=
  match a with
  | some s => some s
  | none => b

/-- Property lookup in a JS object modelled as an assignment list:
the value of the latest assignment to the key, if any. -/
def objGet (m : List (String × String)) (k : String) : Option String :=
  m.foldl (fun acc p => if p.1 = k then some p.2 else acc) none

/-- `map[k]` followed by the `if (!id)` truthiness test of the source:
an absent key and an empty-string value both count as a miss. -/
def jsGet (m : List (String × String)) (k : String) : Option String :=
  jsTruthy (objGet m k)

/-- A field entry of the schema metadata listing (`name`, `type` members,
each possibly absent). -/
structure FieldMeta where
  name : Option String
  type : Option String
deriving DecidableEq

/-- A table entry of the schema metadata listing (`id`, `name`, `fields`
members; `id`/`name` possibly absent). -/
structure TableMeta where
  name : Option String
  id : Option String
  fields : List FieldMeta
deriving DecidableEq

/-- The resolver cache: `type TableCache = { ts: number; byName: Record<string,string> }`. -/
structure TableCache where
  ts : Nat
  byName : List (String × String)
deriving DecidableEq

/-- The test `/^tbl[a-zA-Z0-9]{10,}$/.test(tableOrId)`: fixed prefix `tbl`
followed by at least 10 ASCII alphanumeric characters. -/
def isTableId (s : String) : Bool :=
  match s.toList with
  | 't' :: 'b' :: 'l' :: rest => decide (rest.length ≥ 10) && rest.all Char.isAlphanum
  | _ => false

/-- One step of the refresh loop
`for (const t of data.tables) if (t?.name && t?.id) map[t.name] = t.id`:
record the assignment when both `name` and `id` are truthy. -/
def addServiceEntry (m : List (String × String)) (t : TableMeta) : List (String × String) :=
  match t.name, t.id with
  | some n, some i => if n ≠ "" ∧ i ≠ "" then m ++ [(n, i)] else m
  | _, _ => m

/-- `refreshTableCache`: seed the working map from `ALLOWED_TABLES` when
present, add an entry for every table of the metadata listing whose `name`
and `id` are truthy, and build a brand-new `{ ts: now, byName: map }`
snapshot (the source assigns it wholesale to the module variable; no field
of the previous snapshot is reused, which is why the previous cache is not
even an argument here). -/
def refreshTableCache (allowed : Option (List (String × String))) (now : Nat)
    (resp : Option (List TableMeta)) : TableCache :=
  let seed := allowed.getD []
  let map := (resp.getD []).foldl addServiceEntry seed
  { ts := now, byName := map }

/-- The staleness test `!tableCache || now - tableCache.ts > 5 * 60_000`. -/
def cacheIsStale (now : Nat) (cache : Option TableCache) : Bool :=
  match cache with
  | none => true
  | some c => decide (now - c.ts > 5 * 60000)

/-- The cache `resolveTableId` performs its first lookup in, together with
the number of refreshes (0 or 1) spent obtaining it: a refresh happens
exactly when no cache exists or the cache is older than the 5-minute TTL. -/
def cacheForLookup (allowed : Option (List (String × String))) (now : Nat)
    (cache : Option TableCache) (r1 : Option (List TableMeta)) : TableCache × Nat :=
  if cacheIsStale now cache then (refreshTableCache allowed now r1, 1)
  else (cache.getD { ts := 0, byName := [] }, 0)

/-- Outcome of `resolveTableId`: the resolved id, or the thrown
`Table not found by name: ...` error. -/
inductive ResolveResult where
  | ok (id : String)
  | notFound (msg : String)
deriving DecidableEq

/-- `resolveTableId`: identifier-shaped inputs are returned unchanged; a
name is looked up in the (possibly freshly refreshed) cache, a miss forces
one more refresh and one retry, and a second miss throws.  `r1` and `r2`
are the metadata bodies received by the first and second refresh this call
performs, the returned `Option TableCache` is the module-level cache after
the call, and the returned `Nat` counts `refreshTableCache` invocations. -/
def resolveTableId (tableOrId : String) (allowed : Option (List (String × String)))
    (now : Nat) (cache : Option TableCache) (r1 r2 : Option (List TableMeta)) :
    ResolveResult × Option TableCache × Nat :=
  if isTableId tableOrId then (.ok tableOrId, cache, 0)
  else
    let p := cacheForLookup allowed now cache r1
    let rNext := if p.2 = 1 then r2 else r1
    match jsGet p.1.byName tableOrId with
    | some id => (.ok id, some p.1, p.2)
    | none =>
      let c2 := refreshTableCache allowed now rNext
      match jsGet c2.byName tableOrId with
      | some id2 => (.ok id2, some c2, p.2 + 1)
      | none => (.notFound ("Table not found by name: " ++ tableOrId), some c2, p.2 + 1)

/-- `escapeForFormula` pass 1, `s.replace(/\\/g, "\\\\")` per character:
a backslash becomes two backslashes. -/
def escBackslashChar (c : Char) : List Char :=
  if c = '\\' then ['\\', '\\'] else [c]

/-- `escapeForFormula` pass 2, `.replace(/"/g, '\\"')` per character:
a double quote gains a preceding backslash. -/
def escQuoteChar (c : Char) : List Char :=
  if c = '"' then ['\\', '"'] else [c]

/-- `escapeForFormula`: double every backslash, then escape every double
quote in the result. -/
def escapeForFormula (s : String) : String :=
  String.mk (((s.toList.map escBackslashChar).flatten).map escQuoteChar).flatten

/-- `buildFormulaFromFields`: one `SEARCH("q", {Field} & "")` clause per
field, all joined under a single `OR(...)`; the empty field list yields the
empty formula. -/
def buildFormulaFromFields (q : String) (fields : List String) : String :=
  let qq := escapeForFormula q
  let parts := fields.map (fun n => "SEARCH(\"" ++ qq ++ "\", \x7b" ++ n ++ "\x7d & \"\")")
  if parts.length ≠ 0 then "OR(" ++ String.intercalate "," parts ++ ")" else ""

/-- The fixed allow-list of text-bearing field types consulted by
`buildSearchFormula`. -/
def allowedFieldTypes : List String :=
  ["singleLineText", "multilineText", "richText", "email", "url"]

/-- The filter `["singleLineText", ...].includes(f?.type)`: an absent type
never qualifies. -/
def fieldTypeAllowed (f : FieldMeta) : Bool :=
  match f.type with
  | some t => allowedFieldTypes.contains t
  | none => false

/-- JS template interpolation of a possibly-absent string
(an absent value renders as the literal text `undefined`). -/
def jsStringOf (o : Option String) : String := o.getD "undefined"

/-- The auto-discovery pipeline of `buildSearchFormula`: locate the table
entry whose `id` strictly equals the resolved table identifier, keep its
fields whose type is in the allow-list, take their names in schema order,
and cap the list at 12. -/
def selectTextFields (schemaResp : Option (List TableMeta)) (resolvedTableId : String) :
    List String :=
  let tbl := (schemaResp.getD []).find? (fun t => t.id == some resolvedTableId)
  ((((tbl.map TableMeta.fields).getD []).filter fieldTypeAllowed).map
    (fun f => jsStringOf f.name)).take 12

/-- `buildSearchFormula`: a non-empty `fieldsToSearch` is used directly;
otherwise the fields come from the schema metadata via `selectTextFields`.
The schema body the call would fetch and the already-resolved table id are
passed in explicitly (`tableId = await resolveTableId(...)` in the
source). -/
def buildSearchFormula (q : String) (fieldsToSearch : Option (List String))
    (resolvedTableId : String) (schemaResp : Option (List TableMeta)) : String :=
  match fieldsToSearch with
  | some fs =>
    if fs.length ≠ 0 then buildFormulaFromFields q fs
    else buildFormulaFromFields q (selectTextFields schemaResp resolvedTableId)
  | none => buildFormulaFromFields q (selectTextFields schemaResp resolvedTableId)

/-- A record of a record-listing response (`id`, `fields`, `createdTime`;
field values are opaque here). -/
structure RecordData where
  id : String
  fields : List (String × String)
  createdTime : String
deriving DecidableEq

/-- A hit produced by `searchOneTable`: the record data tagged with the
table reference the caller passed in (not the resolved id). -/
structure SearchHit where
  id : String
  table : String
  fields : List (String × String)
  createdTime : String
deriving DecidableEq

/-- The hit list `(data?.records || []).map((rec) => ({id, table, fields,
createdTime}))` built by `searchOneTable` for one table. -/
def tableHits (tableRef : String) (records : List RecordData) : List SearchHit :=
  records.map fun r =>
    { id := r.id, table := tableRef, fields := r.fields, createdTime := r.createdTime }

/-- The query-string parameters `searchOneTable` puts on its listing call:
`maxRecords` always, `pageSize`/`offset` only when truthy,
`filterByFormula` only when the formula is non-empty. -/
structure ListQuery where
  maxRecords : Nat
  pageSize : Option Nat
  offset : Option String
  filterByFormula : Option String
deriving DecidableEq

/-- The body of a record-listing response: a possibly-absent `records`
array and a possibly-absent continuation `offset`. -/
structure ListResponse where
  records : Option (List RecordData)
  offset : Option String
deriving DecidableEq

/-- `searchOneTable`: the outcome of `buildSearchFormula(...)` (which may
have rejected) is taken as an argument, a rejection is swallowed into the
empty formula by `.catch(() => "")`, the listing call is issued with the
parameters in `ListQuery`, and the response records are mapped to hits
tagged with the caller's table reference.  Returns the issued query, the
hits and the raw `data?.offset`. -/
def searchOneTable (tableNameOrId : String) (maxRecords : Nat) (pageSize : Option Nat)
    (offset : Option String) (formulaResult : Except String String) (resp : ListResponse) :
    ListQuery × List SearchHit × Option String :=
  let formula := match formulaResult with | .ok f => f | .error _ => ""
  let query : ListQuery :=
    { maxRecords := maxRecords
      pageSize := match pageSize with | some n => if n ≠ 0 then some n else none | none => none
      offset := jsTruthy offset
      filterByFormula := if formula ≠ "" then some formula else none }
  (query, tableHits tableNameOrId ((resp.records).getD []), resp.offset)

/-- The table-reference list of the federated branch:
`(list?.tables || []).map((t) => t?.name || t?.id).filter(Boolean)`. -/
def tableRefs (resp : Option (List TableMeta)) : List String :=
  ((resp.getD []).map (fun t => jsOrStr t.name t.id)).filterMap jsTruthy

/-- The hits one batch contributes: each table's search result, a failed
search replaced by the empty hit list (`.catch(() => ({hits: []}))`),
concatenated in the batch's own order (`for (const r of results)
merged.push(...)` after `Promise.all`). -/
def batchHits (search : String → Option (List SearchHit)) (batch : List String) :
    List SearchHit :=
  (batch.map (fun t => (search t).getD [])).flatten

/-- The fixed inter-batch delay of the federated loop, in milliseconds. -/
def interBatchDelayMs : Nat := 300

/-- The federated loop `for (let i = 0; i < tables.length; i += BATCH)`
with `BATCH = 3`: take three tables at a time, append the batch's hits to
the merged list, and sleep once (`if (i + BATCH < tables.length)`) after
every batch that is not the last.  Returns the merged hit list and the
number of `sleep(300)` calls performed. -/
def searchAllTables (search : String → Option (List SearchHit)) :
    List String → List SearchHit × Nat
  | [] => ([], 0)
  | a :: b :: c :: d :: rest =>
    let res := searchAllTables search (d :: rest)
    (batchHits search [a, b, c] ++ res.1, res.2 + 1)
  | ts => (batchHits search ts, 0)

/-- The successive batches (`tables.slice(i, i + BATCH)`) the federated
loop visits. -/
def fedBatches : List String → List (List String)
  | [] => []
  | a :: b :: c :: d :: rest => [a, b, c] :: fedBatches (d :: rest)
  | ts => [ts]

/-- The whole federated (`allTables`) branch of the `search` tool: list the
base's tables, derive the reference list, and run the batched loop, each
table's record-listing outcome supplied by `tbl` (`none` models any
per-table failure). -/
def federatedSearch (metaResp : Option (List TableMeta))
    (tbl : String → Option (List RecordData)) : List SearchHit × Nat :=
  searchAllTables (fun t => (tbl t).map (tableHits t)) (tableRefs metaResp)

/-- Outcome of target-table selection in the single-table branch of the
`search` tool.  `errorTableRequired` is the `table is required` outcome the
sibling tools produce; the `search` tool's branch never produces it. -/
inductive SingleTableTarget where
  | errorTableRequired
  | noteNoTables
  | given (t : String)
  | fallback (t : String)
deriving DecidableEq

/-- The first-table fallback expression
`(j0?.tables?.[0]?.name) || (j0?.tables?.[0]?.id)` followed by the
truthiness test of `if (!targetTable)`. -/
def firstTableRef (resp : Option (List TableMeta)) : Option String :=
  let f := (resp.getD []).head?
  jsTruthy (jsOrStr (f.bind TableMeta.name) (f.bind TableMeta.id))

/-- Target selection of the single-table branch:
`let targetTable = table ?? DEFAULT_TABLE`, and when that is falsy, fetch
the metadata listing and fall back to the first table's name or id; when
even that is falsy, return the `{ hits: [], note: "No tables found in
base" }` outcome. -/
def pickSingleTableTarget (table defaultTable : Option String)
    (metaResp : Option (List TableMeta)) : SingleTableTarget :=
  match jsTruthy (jsNullish table defaultTable) with
  | some t => .given t
  | none =>
    match firstTableRef metaResp with
    | some t => .fallback t
    | none => .noteNoTables

/-- The cache written by the forced second refresh of a miss: it consumes
`r2` when the first lookup phase already spent a refresh, else `r1`. -/
def forcedRefreshCache (allowed : Option (List (String × String))) (now : Nat)
    (cache : Option TableCache) (r1 r2 : Option (List TableMeta)) : TableCache :=
  refreshTableCache allowed now
    (if (cacheForLookup allowed now cache r1).2 = 1 then r2 else r1)

/-- Specification-side description of what the metadata listing reports for
one name: the id of the last listed table carrying that (truthy) name with
a truthy id, if any. -/
def serviceStep (k : String) (acc : Option String) (t : TableMeta) : Option String :=
  match t.name, t.id with
  | some n, some i => if n ≠ "" ∧ i ≠ "" ∧ n = k then some i else acc
  | _, _ => acc

/-- The service-reported identifier for a name, later listing entries
winning over earlier ones. -/
def serviceLast (resp : Option (List TableMeta)) (k : String) : Option String :=
  (resp.getD []).foldl (serviceStep k) none

/-! ### Helper lemmas -/

theorem objGet_append_single (m : List (String × String)) (n i k : String) :
    objGet (m ++ [(n, i)]) k = if n = k then some i else objGet m k := by
  unfold objGet
  rw [List.foldl_append]
  rfl

theorem foldl_serviceStep_acc (k : String) (tbls : List TableMeta) (acc : Option String) :
    tbls.foldl (serviceStep k) acc
      = match tbls.foldl (serviceStep k) none with
        | some i => some i
        | none => acc := by
  induction tbls generalizing acc with
  | nil => simp
  | cons t tbls ih =>
    simp only [List.foldl_cons]
    rw [ih (serviceStep k acc t), ih (serviceStep k none t)]
    cases tbls.foldl (serviceStep k) none with
    | some i => rfl
    | none =>
      unfold serviceStep
      cases t.name <;> cases t.id <;> simp only []
      split <;> rfl

theorem objGet_foldl_addServiceEntry (k : String) (tbls : List TableMeta)
    (m : List (String × String)) :
    objGet (tbls.foldl addServiceEntry m) k
      = match tbls.foldl (serviceStep k) none with
        | some i => some i
        | none => objGet m k := by
  induction tbls generalizing m with
  | nil => simp
  | cons t tbls ih =>
    simp only [List.foldl_cons]
    rw [ih (addServiceEntry m t), foldl_serviceStep_acc k tbls (serviceStep k none t)]
    cases tbls.foldl (serviceStep k) none with
    | some i => rfl
    | none =>
      unfold addServiceEntry serviceStep
      cases hn : t.name <;> cases hi : t.id <;> simp only []
      case some.some n i =>
        by_cases hni : n ≠ "" ∧ i ≠ ""
        · rw [if_pos hni, objGet_append_single]
          by_cases hk : n = k
          · rw [if_pos hk, if_pos ⟨hni.1, hni.2, hk⟩]
          · rw [if_neg hk, if_neg (by simp [hk])]
        · rw [if_neg hni, if_neg (by simp only [ne_eq] at hni ⊢; tauto)]

theorem cacheForLookup_refreshes_le_one (allowed : Option (List (String × String)))
    (now : Nat) (cache : Option TableCache) (r1 : Option (List TableMeta)) :
    (cacheForLookup allowed now cache r1).2 ≤ 1 := by
  unfold cacheForLookup
  split <;> simp

/-! ### Claim theorems for the resolver -/

/-- C1: for a non-identifier-shaped input, `resolveTableId` performs at
most two cache refreshes; when the name misses in the fresh or
just-refreshed cache it performs exactly one additional forced refresh,
retries once against the refreshed cache, fails with the
`Table not found by name` error when still missing (no third refresh), and
returns the found identifier when the extra refresh surfaced it. -/
theorem resolve_miss_bounded_retry (t : String) (allowed : Option (List (String × String)))
    (now : Nat) (cache : Option TableCache) (r1 r2 : Option (List TableMeta))
    (h : isTableId t = false) :
    (resolveTableId t allowed now cache r1 r2).2.2 ≤ 2 ∧
    (jsGet (cacheForLookup allowed now cache r1).1.byName t = none →
      (resolveTableId t allowed now cache r1 r2).2.2
          = (cacheForLookup allowed now cache r1).2 + 1 ∧
      (resolveTableId t allowed now cache r1 r2).2.1
          = some (forcedRefreshCache allowed now cache r1 r2) ∧
      (jsGet (forcedRefreshCache allowed now cache r1 r2).byName t = none →
        (resolveTableId t allowed now cache r1 r2).1
          = .notFound ("Table not found by name: " ++ t)) ∧
      (∀ id, jsGet (forcedRefreshCache allowed now cache r1 r2).byName t = some id →
        (resolveTableId t allowed now cache r1 r2).1 = .ok id)) := by
  have hp := cacheForLookup_refreshes_le_one allowed now cache r1
  unfold resolveTableId forcedRefreshCache
  rw [h]
  simp only [Bool.false_eq_true, if_false]
  cases hm : jsGet (cacheForLookup allowed now cache r1).1.byName t with
  | some id => simp only [hm]; exact ⟨by omega, by simp⟩
  | none =>
    simp only [hm]
    cases hm2 : jsGet (refreshTableCache allowed now
        (if (cacheForLookup allowed now cache r1).2 = 1 then r2 else r1)).byName t with
    | some id2 =>
      simp only [hm2]
      refine ⟨by omega, fun _ => ?_⟩
      simp
    | none =>
      simp only [hm2]
      refine ⟨by omega, fun _ => ?_⟩
      simp

/-- Concrete run of `resolve_miss_bounded_retry`: the name `Projects`
misses the first refresh's empty listing, is found by the forced second
refresh, and resolution uses exactly two refreshes. -/
theorem resolve_miss_bounded_retry_witness :
    isTableId "Projects" = false ∧
    ((resolveTableId "Projects" none 0 none (some [])
        (some [⟨some "Projects", some "tblABCDEFGHIJ", []⟩])).2.2 ≤ 2 ∧
    (jsGet (cacheForLookup none 0 none (some [])).1.byName "Projects" = none →
      (resolveTableId "Projects" none 0 none (some [])
          (some [⟨some "Projects", some "tblABCDEFGHIJ", []⟩])).2.2
          = (cacheForLookup none 0 none (some [])).2 + 1 ∧
      (resolveTableId "Projects" none 0 none (some [])
          (some [⟨some "Projects", some "tblABCDEFGHIJ", []⟩])).2.1
          = some (forcedRefreshCache none 0 none (some [])
              (some [⟨some "Projects", some "tblABCDEFGHIJ", []⟩])) ∧
      (jsGet (forcedRefreshCache none 0 none (some [])
            (some [⟨some "Projects", some "tblABCDEFGHIJ", []⟩])).byName "Projects" = none →
        (resolveTableId "Projects" none 0 none (some [])
            (some [⟨some "Projects", some "tblABCDEFGHIJ", []⟩])).1
          = .notFound ("Table not found by name: " ++ "Projects")) ∧
      (∀ id, jsGet (forcedRefreshCache none 0 none (some [])
            (some [⟨some "Projects", some "tblABCDEFGHIJ", []⟩])).byName "Projects" = some id →
        (resolveTableId "Projects" none 0 none (some [])
            (some [⟨some "Projects", some "tblABCDEFGHIJ", []⟩])).1 = .ok id))) :=
  ⟨by decide,
   resolve_miss_bounded_retry "Projects" none 0 none (some [])
     (some [⟨some "Projects", some "tblABCDEFGHIJ", []⟩]) (by decide)⟩

/-- C2: an identifier-shaped input is returned unchanged, with zero
refreshes (hence zero network calls) and the cache passed through
untouched. -/
theorem resolve_identifier_bypasses_cache (t : String)
    (allowed : Option (List (String × String))) (now : Nat) (cache : Option TableCache)
    (r1 r2 : Option (List TableMeta)) (h : isTableId t = true) :
    resolveTableId t allowed now cache r1 r2 = (.ok t, cache, 0) := by
  unfold resolveTableId
  rw [h]
  simp

/-- Concrete run of `resolve_identifier_bypasses_cache` on
`tblABCDEFGHIJ`. -/
theorem resolve_identifier_bypasses_cache_witness :
    isTableId "tblABCDEFGHIJ" = true ∧
    resolveTableId "tblABCDEFGHIJ" none 7 none none none = (.ok "tblABCDEFGHIJ", none, 0) :=
  ⟨by decide,
   resolve_identifier_bypasses_cache "tblABCDEFGHIJ" none 7 none none none (by decide)⟩

/-- C3: every refresh stamps the snapshot with the current time and builds
its map by seeding from the static allow-list and then letting the
service-reported identifier win for every name the listing reports; the
snapshot is a single freshly built `\x7b ts, byName \x7d` value (the
previous cache is not an input of `refreshTableCache` at all). -/
theorem refresh_seed_then_service_wins (allowed : Option (List (String × String)))
    (now : Nat) (resp : Option (List TableMeta)) :
    (refreshTableCache allowed now resp).ts = now ∧
    ∀ k, objGet (refreshTableCache allowed now resp).byName k
        = match serviceLast resp k with
          | some i => some i
          | none => objGet (allowed.getD []) k := by
  refine ⟨rfl, fun k => ?_⟩
  unfold refreshTableCache serviceLast
  exact objGet_foldl_addServiceEntry k (resp.getD []) (allowed.getD [])

/-! ### Helper lemmas for the federated loop -/

theorem fedBatches_flatten (ts : List String) : (fedBatches ts).flatten = ts := by
  induction ts using fedBatches.induct with
  | case1 => rfl
  | case2 a b c d rest ih => simp [fedBatches, ih]
  | case3 ts h1 h2 => simp [fedBatches]

theorem fedBatches_length (ts : List String) :
    (fedBatches ts).length = (ts.length + 2) / 3 := by
  induction ts using fedBatches.induct with
  | case1 => rfl
  | case2 a b c d rest ih =>
    simp only [fedBatches, List.length_cons, ih]
    omega
  | case3 ts h1 h2 =>
    rcases ts with _ | ⟨a, _ | ⟨b, _ | ⟨c, _ | ⟨d, rest⟩⟩⟩⟩
    · exact absurd rfl h1
    · simp [fedBatches]
    · simp [fedBatches]
    · simp [fedBatches]
    · exact absurd rfl (h2 a b c d rest)

theorem fedBatches_ne_nil (ts : List String) (h : ts ≠ []) : fedBatches ts ≠ [] := by
  rcases ts with _ | ⟨a, _ | ⟨b, _ | ⟨c, _ | ⟨d, rest⟩⟩⟩⟩
  · exact absurd rfl h
  · simp [fedBatches]
  · simp [fedBatches]
  · simp [fedBatches]
  · simp [fedBatches]

theorem fedBatches_dropLast_three (ts : List String) :
    ∀ b ∈ (fedBatches ts).dropLast, b.length = 3 := by
  induction ts using fedBatches.induct with
  | case1 => simp [fedBatches]
  | case2 a b c d rest ih =>
    intro x hx
    have hne : fedBatches (d :: rest) ≠ [] := fedBatches_ne_nil _ (by simp)
    rcases hfb : fedBatches (d :: rest) with _ | ⟨y, ys⟩
    · exact absurd hfb hne
    · rw [fedBatches] at hx
      rw [hfb, List.dropLast_cons₂, List.mem_cons] at hx
      rcases hx with hx | hx
      · rw [hx]; rfl
      · exact ih x (by rw [hfb]; exact hx)
  | case3 ts h1 h2 =>
    rcases ts with _ | ⟨a, _ | ⟨b, _ | ⟨c, _ | ⟨d, rest⟩⟩⟩⟩
    · simp [fedBatches]
    · simp [fedBatches]
    · simp [fedBatches]
    · simp [fedBatches]
    · exact absurd rfl (h2 a b c d rest)

theorem fedBatches_getLast_length (ts : List String) :
    ∀ b, (fedBatches ts).getLast? = some b →
      b.length = if ts.length % 3 = 0 then 3 else ts.length % 3 := by
  induction ts using fedBatches.induct with
  | case1 => simp [fedBatches]
  | case2 a b c d rest ih =>
    intro x hx
    have hne : fedBatches (d :: rest) ≠ [] := fedBatches_ne_nil _ (by simp)
    rcases hfb : fedBatches (d :: rest) with _ | ⟨y, ys⟩
    · exact absurd hfb hne
    · rw [fedBatches, hfb, List.getLast?_cons_cons] at hx
      have := ih x (by rw [hfb]; exact hx)
      have hmod : (a :: b :: c :: d :: rest).length % 3 = (d :: rest).length % 3 := by
        simp only [List.length_cons]
        omega
      rw [hmod]
      exact this
  | case3 ts h1 h2 =>
    rcases ts with _ | ⟨a, _ | ⟨b, _ | ⟨c, _ | ⟨d, rest⟩⟩⟩⟩
    · exact absurd rfl h1
    · intro x hx
      simp only [fedBatches, List.getLast?_singleton, Option.some.injEq] at hx
      rw [← hx]
      simp
    · intro x hx
      simp only [fedBatches, List.getLast?_singleton, Option.some.injEq] at hx
      rw [← hx]
      simp
    · intro x hx
      simp only [fedBatches, List.getLast?_singleton, Option.some.injEq] at hx
      rw [← hx]
      simp
    · exact absurd rfl (h2 a b c d rest)

theorem searchAllTables_fst (search : String → Option (List SearchHit)) (ts : List String) :
    (searchAllTables search ts).1 = (ts.map fun t => (search t).getD []).flatten := by
  induction ts using searchAllTables.induct search with
  | case1 => rfl
  | case2 a b c d rest ih => simp [searchAllTables, batchHits, ih]
  | case3 ts h1 h2 =>
    rcases ts with _ | ⟨a, _ | ⟨b, _ | ⟨c, _ | ⟨d, rest⟩⟩⟩⟩
    · exact absurd rfl h1
    · simp [searchAllTables, batchHits]
    · simp [searchAllTables, batchHits]
    · simp [searchAllTables, batchHits]
    · exact absurd rfl (h2 a b c d rest)

theorem searchAllTables_fst_batches (search : String → Option (List SearchHit))
    (ts : List String) :
    (searchAllTables search ts).1 = ((fedBatches ts).map (batchHits search)).flatten := by
  induction ts using searchAllTables.induct search with
  | case1 => rfl
  | case2 a b c d rest ih => simp [searchAllTables, fedBatches, ih]
  | case3 ts h1 h2 =>
    rcases ts with _ | ⟨a, _ | ⟨b, _ | ⟨c, _ | ⟨d, rest⟩⟩⟩⟩
    · exact absurd rfl h1
    · simp [searchAllTables, fedBatches]
    · simp [searchAllTables, fedBatches]
    · simp [searchAllTables, fedBatches]
    · exact absurd rfl (h2 a b c d rest)

theorem searchAllTables_snd (search : String → Option (List SearchHit)) (ts : List String) :
    (searchAllTables search ts).2 = (fedBatches ts).length - 1 := by
  induction ts using searchAllTables.induct search with
  | case1 => rfl
  | case2 a b c d rest ih =>
    have hlen : (fedBatches (d :: rest)).length = ((d :: rest).length + 2) / 3 :=
      fedBatches_length _
    simp only [searchAllTables, fedBatches, List.length_cons, ih, hlen]
    simp only [List.length_cons] at hlen ⊢
    omega
  | case3 ts h1 h2 =>
    rcases ts with _ | ⟨a, _ | ⟨b, _ | ⟨c, _ | ⟨d, rest⟩⟩⟩⟩
    · exact absurd rfl h1
    · simp [searchAllTables, fedBatches]
    · simp [searchAllTables, fedBatches]
    · simp [searchAllTables, fedBatches]
    · exact absurd rfl (h2 a b c d rest)

/-! ### Claim theorems for the federated search -/

/-- C4: the federated loop visits the table list in consecutive batches
of size 3 (the last batch holding `n mod 3` tables when `n mod 3 ≠ 0`),
issues `(n + 2) / 3` batches (the ceiling of `n / 3`), and sleeps the fixed
300 ms delay exactly once after every batch except the last, that is,
`(n + 2) / 3 - 1` times. -/
theorem federated_batch_partition_and_delays (search : String → Option (List SearchHit))
    (ts : List String) (h : ts ≠ []) :
    (fedBatches ts).flatten = ts ∧
    (∀ b ∈ (fedBatches ts).dropLast, b.length = 3) ∧
    (∀ b, (fedBatches ts).getLast? = some b →
      b.length = if ts.length % 3 = 0 then 3 else ts.length % 3) ∧
    (fedBatches ts).length = (ts.length + 2) / 3 ∧
    (searchAllTables search ts).2 = (ts.length + 2) / 3 - 1 ∧
    interBatchDelayMs = 300 := by
  refine ⟨fedBatches_flatten ts, fedBatches_dropLast_three ts,
    fedBatches_getLast_length ts, fedBatches_length ts, ?_, rfl⟩
  rw [searchAllTables_snd, fedBatches_length]

/-- Concrete run of `federated_batch_partition_and_delays` on 7 tables:
three batches of sizes 3, 3 and 1, and exactly two inter-batch delays. -/
theorem federated_batch_partition_and_delays_witness :
    (["T1", "T2", "T3", "T4", "T5", "T6", "T7"] : List String) ≠ [] ∧
    ((fedBatches ["T1", "T2", "T3", "T4", "T5", "T6", "T7"]).flatten
        = ["T1", "T2", "T3", "T4", "T5", "T6", "T7"] ∧
      (∀ b ∈ (fedBatches ["T1", "T2", "T3", "T4", "T5", "T6", "T7"]).dropLast,
        b.length = 3) ∧
      (∀ b, (fedBatches ["T1", "T2", "T3", "T4", "T5", "T6", "T7"]).getLast? = some b →
        b.length = if (["T1", "T2", "T3", "T4", "T5", "T6", "T7"] : List String).length % 3 = 0
          then 3 else (["T1", "T2", "T3", "T4", "T5", "T6", "T7"] : List String).length % 3) ∧
      (fedBatches ["T1", "T2", "T3", "T4", "T5", "T6", "T7"]).length
        = ((["T1", "T2", "T3", "T4", "T5", "T6", "T7"] : List String).length + 2) / 3 ∧
      (searchAllTables (fun _ => none) ["T1", "T2", "T3", "T4", "T5", "T6", "T7"]).2
        = ((["T1", "T2", "T3", "T4", "T5", "T6", "T7"] : List String).length + 2) / 3 - 1 ∧
      interBatchDelayMs = 300) ∧
    fedBatches ["T1", "T2", "T3", "T4", "T5", "T6", "T7"]
      = [["T1", "T2", "T3"], ["T4", "T5", "T6"], ["T7"]] ∧
    (searchAllTables (fun _ => none) ["T1", "T2", "T3", "T4", "T5", "T6", "T7"]).2 = 2 :=
  ⟨by decide,
   federated_batch_partition_and_delays (fun _ => none)
     ["T1", "T2", "T3", "T4", "T5", "T6", "T7"] (by decide),
   by decide, by decide⟩

/-- C5: a failing per-table search (`tbl t = none`) contributes exactly the
empty hit list and nothing else changes: the merged result is still the
concatenation, over all visited tables, of each table's (caught) hits, and
every non-failing table's full hit list appears inside the merged result.
The aggregate result is a plain value, never an error. -/
theorem federated_failure_isolated (tbl : String → Option (List RecordData))
    (metaResp : Option (List TableMeta)) (t : String)
    (ht : t ∈ tableRefs metaResp) (hfail : tbl t = none) :
    (federatedSearch metaResp tbl).1
      = ((tableRefs metaResp).map
          (fun u => ((tbl u).map (tableHits u)).getD [])).flatten ∧
    ((tbl t).map (tableHits t)).getD [] = [] ∧
    ∀ u hs, u ∈ tableRefs metaResp → tbl u = some hs →
      (tableHits u hs).Sublist (federatedSearch metaResp tbl).1 := by
  refine ⟨searchAllTables_fst _ _, by rw [hfail]; rfl, ?_⟩
  intro u hs hu hh
  rw [federatedSearch, searchAllTables_fst]
  have hmem : tableHits u hs ∈ (tableRefs metaResp).map
      (fun v => ((tbl v).map (tableHits v)).getD []) := by
    refine List.mem_map.mpr ⟨u, hu, ?_⟩
    rw [hh]
    rfl
  exact List.sublist_flatten_of_mem hmem

/-- Concrete run of `federated_failure_isolated`: table `T4` of 7 fails,
the merged result still carries the hits of `T1`–`T3` and `T5`–`T7`. -/
theorem federated_failure_isolated_witness :
    ("T4" : String) ∈ tableRefs (some
      [⟨some "T1", some "i1", []⟩, ⟨some "T2", some "i2", []⟩, ⟨some "T3", some "i3", []⟩,
       ⟨some "T4", some "i4", []⟩, ⟨some "T5", some "i5", []⟩, ⟨some "T6", some "i6", []⟩,
       ⟨some "T7", some "i7", []⟩]) ∧
    (fun u => if u = "T4" then none
      else some [({ id := "r" ++ u, fields := [], createdTime := "" } : RecordData)]) "T4"
      = none ∧
    (federatedSearch (some
      [⟨some "T1", some "i1", []⟩, ⟨some "T2", some "i2", []⟩, ⟨some "T3", some "i3", []⟩,
       ⟨some "T4", some "i4", []⟩, ⟨some "T5", some "i5", []⟩, ⟨some "T6", some "i6", []⟩,
       ⟨some "T7", some "i7", []⟩])
      (fun u => if u = "T4" then none
        else some [({ id := "r" ++ u, fields := [], createdTime := "" } : RecordData)])).1.map
      SearchHit.table = ["T1", "T2", "T3", "T5", "T6", "T7"] := by
  refine ⟨?_, ?_, ?_⟩
  · decide
  · decide
  · have := federated_failure_isolated
      (fun u => if u = "T4" then none
        else some [({ id := "r" ++ u, fields := [], createdTime := "" } : RecordData)])
      (some
        [⟨some "T1", some "i1", []⟩, ⟨some "T2", some "i2", []⟩, ⟨some "T3", some "i3", []⟩,
         ⟨some "T4", some "i4", []⟩, ⟨some "T5", some "i5", []⟩, ⟨some "T6", some "i6", []⟩,
         ⟨some "T7", some "i7", []⟩]) "T4" (by decide) (by decide)
    rw [this.1]
    decide

/-- C6: the merged federated result is the concatenation of every visited
table's hits in table-visitation order (the order the filtered metadata
listing reported), equal to the batch-by-batch concatenation over the
batches of the loop; within one table the hits preserve the listing's
record order (same ids in the same order, each tagged with that table's
reference), and nothing is deduplicated: the merged length is the sum of
the per-table hit counts. -/
theorem federated_merge_order (metaResp : Option (List TableMeta))
    (tbl : String → Option (List RecordData)) :
    (federatedSearch metaResp tbl).1
      = ((tableRefs metaResp).map
          (fun u => ((tbl u).map (tableHits u)).getD [])).flatten ∧
    (federatedSearch metaResp tbl).1
      = ((fedBatches (tableRefs metaResp)).map
          (batchHits (fun u => (tbl u).map (tableHits u)))).flatten ∧
    (∀ u rs, (tableHits u rs).map SearchHit.id = rs.map RecordData.id) ∧
    (∀ u rs, ∀ x ∈ tableHits u rs, x.table = u) ∧
    (federatedSearch metaResp tbl).1.length
      = ((tableRefs metaResp).map
          (fun u => (((tbl u).map (tableHits u)).getD []).length)).sum := by
  refine ⟨searchAllTables_fst _ _, searchAllTables_fst_batches _ _, ?_, ?_, ?_⟩
  · intro u rs
    simp [tableHits, List.map_map]
  · intro u rs x hx
    rcases List.mem_map.mp hx with ⟨r, _, hr⟩
    rw [← hr]
  · rw [federatedSearch, searchAllTables_fst, List.length_flatten, List.map_map]
    rfl

/-! ### Helper lemmas for the formula builder -/

/-- Specification-side single-pass description of the escaping: a
backslash becomes `\\`, a double quote becomes `\"`, everything else is
kept. -/
def escapeSpecChar (c : Char) : List Char :=
  if c = '\\' then ['\\', '\\'] else if c = '"' then ['\\', '"'] else [c]

theorem escapeForFormula_toList (s : String) :
    (escapeForFormula s).toList = (s.toList.map escapeSpecChar).flatten := by
  show (((s.toList.map escBackslashChar).flatten).map escQuoteChar).flatten
      = (s.toList.map escapeSpecChar).flatten
  induction s.toList with
  | nil => rfl
  | cons c cs ih =>
    simp only [List.map_cons, List.flatten_cons, List.map_append, List.flatten_append, ih]
    congr 1
    by_cases h1 : c = '\\'
    · subst h1
      simp [escBackslashChar, escQuoteChar, escapeSpecChar]
    · by_cases h2 : c = '"'
      · subst h2
        simp [escBackslashChar, escQuoteChar, escapeSpecChar, h1]
      · simp [escBackslashChar, escQuoteChar, escapeSpecChar, h1, h2]

/-! ### Claim theorems for the formula builder -/

/-- C7: a non-empty explicit field list makes `buildSearchFormula` ignore
the schema entirely and emit the `OR` of one `SEARCH` clause per given
field, the query sitting inside the quoted literal with every backslash
and double quote escaped (the escaping equals the single-pass
character-wise description `escapeSpecChar`). -/
theorem explicit_fields_formula (q : String) (fs : List String)
    (resolvedTableId : String) (schemaResp : Option (List TableMeta)) (h : fs ≠ []) :
    buildSearchFormula q (some fs) resolvedTableId schemaResp
      = buildFormulaFromFields q fs ∧
    buildFormulaFromFields q fs
      = "OR(" ++ String.intercalate ","
          (fs.map (fun n =>
            "SEARCH(\"" ++ escapeForFormula q ++ "\", \x7b" ++ n ++ "\x7d & \"\")")) ++ ")" ∧
    (escapeForFormula q).toList = (q.toList.map escapeSpecChar).flatten := by
  refine ⟨?_, ?_, escapeForFormula_toList q⟩
  · show (if fs.length ≠ 0 then buildFormulaFromFields q fs
      else buildFormulaFromFields q (selectTextFields schemaResp resolvedTableId))
      = buildFormulaFromFields q fs
    rw [if_pos (by simpa using h)]
  · unfold buildFormulaFromFields
    rw [if_pos (by simpa using h)]

/-- Concrete run of `explicit_fields_formula`: fields `["Name"]` and query
`say "hi"` produce exactly `OR(SEARCH("say \"hi\"", \x7bName\x7d & ""))`,
which contains the escaped form `say \"hi\"` and references only the field
`Name`. -/
theorem explicit_fields_formula_witness :
    (["Name"] : List String) ≠ [] ∧
    (buildSearchFormula "say \"hi\"" (some ["Name"]) "tblXXXXXXXXXX" none
        = buildFormulaFromFields "say \"hi\"" ["Name"] ∧
      buildFormulaFromFields "say \"hi\"" ["Name"]
        = "OR(" ++ String.intercalate ","
            ((["Name"] : List String).map (fun n =>
              "SEARCH(\"" ++ escapeForFormula "say \"hi\"" ++ "\", \x7b" ++ n
                ++ "\x7d & \"\")")) ++ ")" ∧
      (escapeForFormula "say \"hi\"").toList
        = ("say \"hi\"".toList.map escapeSpecChar).flatten) ∧
    buildFormulaFromFields "say \"hi\"" ["Name"]
      = "OR(SEARCH(\"say \\\"hi\\\"\", \x7bName\x7d & \"\"))" :=
  ⟨by decide,
   explicit_fields_formula "say \"hi\"" ["Name"] "tblXXXXXXXXXX" none (by decide),
   by decide⟩

/-- C8: with no explicit field list, `buildSearchFormula` derives its
fields from the schema body: it locates the table entry whose `id` equals
the resolved identifier, and selects at most 12 field names, in the
schema's own field order, all coming from fields whose declared type is in
the fixed allow-list; with no matching table entry the selection is
empty. -/
theorem auto_field_selection (q : String) (resolvedTableId : String)
    (schemaResp : Option (List TableMeta)) :
    buildSearchFormula q none resolvedTableId schemaResp
      = buildFormulaFromFields q (selectTextFields schemaResp resolvedTableId) ∧
    (selectTextFields schemaResp resolvedTableId).length ≤ 12 ∧
    (∀ tm, (schemaResp.getD []).find? (fun t => t.id == some resolvedTableId) = some tm →
      selectTextFields schemaResp resolvedTableId
        = ((tm.fields.filter fieldTypeAllowed).map (fun f => jsStringOf f.name)).take 12 ∧
      (selectTextFields schemaResp resolvedTableId).Sublist
        (tm.fields.map (fun f => jsStringOf f.name))) ∧
    ((schemaResp.getD []).find? (fun t => t.id == some resolvedTableId) = none →
      selectTextFields schemaResp resolvedTableId = []) ∧
    (∀ n ∈ selectTextFields schemaResp resolvedTableId,
      ∃ f, (∃ tm, (schemaResp.getD []).find? (fun t => t.id == some resolvedTableId) = some tm
              ∧ f ∈ tm.fields)
        ∧ fieldTypeAllowed f = true ∧ jsStringOf f.name = n) := by
  refine ⟨rfl, ?_, ?_, ?_, ?_⟩
  · unfold selectTextFields
    simp [List.length_take]
  · intro tm htm
    unfold selectTextFields
    rw [htm]
    refine ⟨rfl, ?_⟩
    exact (List.take_sublist _ _).trans ((List.filter_sublist _).map _)
  · intro hnone
    unfold selectTextFields
    rw [hnone]
    rfl
  · intro n hn
    unfold selectTextFields at hn
    cases htm : (schemaResp.getD []).find? (fun t => t.id == some resolvedTableId) with
    | none =>
      rw [htm] at hn
      simp at hn
    | some tm =>
      rw [htm] at hn
      have hn2 := (List.take_sublist _ _).mem hn
      rcases List.mem_map.mp hn2 with ⟨f, hf, hfn⟩
      exact ⟨f, ⟨tm, rfl, (List.mem_filter.mp hf).1⟩, (List.mem_filter.mp hf).2, hfn⟩

/-- C9: `searchOneTable` treats a failed formula construction exactly like
the empty formula, and an empty formula means the listing call carries no
`filterByFormula` parameter at all while the call itself still proceeds
and maps the returned records (a non-empty formula is forwarded
verbatim); the zero-fields case of `buildFormulaFromFields` yields the
empty formula. -/
theorem searchOneTable_degrades_formula (tableRef : String) (maxRecords : Nat)
    (pageSize : Option Nat) (offset : Option String) (resp : ListResponse) (q : String) :
    (∀ e, searchOneTable tableRef maxRecords pageSize offset (.error e) resp
        = searchOneTable tableRef maxRecords pageSize offset (.ok "") resp) ∧
    (searchOneTable tableRef maxRecords pageSize offset (.ok "") resp).1.filterByFormula
      = none ∧
    (∀ f, (searchOneTable tableRef maxRecords pageSize offset (.ok f) resp).1.filterByFormula
        = if f ≠ "" then some f else none) ∧
    buildFormulaFromFields q [] = "" ∧
    (∀ e, (searchOneTable tableRef maxRecords pageSize offset (.error e) resp).2.1
        = tableHits tableRef ((resp.records).getD []) ∧
      (searchOneTable tableRef maxRecords pageSize offset (.error e) resp).2.2
        = resp.offset) := by
  refine ⟨fun e => rfl, ?_, fun f => rfl, ?_, fun e => ⟨rfl, rfl⟩⟩
  · simp [searchOneTable]
  · simp [buildFormulaFromFields]

/-! ### Single-table target selection -/

theorem jsTruthy_some_of_eq_some (o : Option String) (n : String) (h : jsTruthy o = some n) :
    jsTruthy (some n) = some n := by
  cases o with
  | none => simp [jsTruthy] at h
  | some s =>
    simp only [jsTruthy] at h ⊢
    by_cases hs : s = ""
    · rw [if_pos hs] at h
      exact absurd h (by simp)
    · rw [if_neg hs] at h
      have hsn : s = n := by injection h
      subst hsn
      rw [if_neg hs]

/-- C10 (counterexample): the note outcome is not reserved to an empty
table listing — with no table argument and no default table, a listing
reporting one table whose entry carries neither a name nor an id also
produces the `No tables found in base` note, although the base did report
a table. -/
theorem single_table_note_counterexample :
    pickSingleTableTarget none none (some [⟨none, none, []⟩]) = .noteNoTables ∧
    (some [(⟨none, none, []⟩ : TableMeta)] : Option (List TableMeta)).getD []
      ≠ ([] : List TableMeta) := by
  decide

/-- C10 (amended): with no table argument and no default table, the
single-table branch never yields the `table is required` error outcome:
it falls back to the first table of the metadata listing, preferring that
table's truthy name over its id, and yields the empty-hits note outcome
exactly when the listing offers no usable first-table reference — in
particular whenever it reports no tables at all, but also when the first
reported table has neither a truthy name nor a truthy id. -/
theorem single_table_fallback_amended (resp : Option (List TableMeta)) :
    pickSingleTableTarget none none resp ≠ .errorTableRequired ∧
    (pickSingleTableTarget none none resp = .noteNoTables ↔ firstTableRef resp = none) ∧
    (∀ t, firstTableRef resp = some t →
      pickSingleTableTarget none none resp = .fallback t) ∧
    (∀ tm rest, resp = some (tm :: rest) →
      (∀ n, jsTruthy tm.name = some n → firstTableRef resp = some n) ∧
      (jsTruthy tm.name = none → firstTableRef resp = jsTruthy tm.id)) ∧
    (resp.getD [] = [] → pickSingleTableTarget none none resp = .noteNoTables) := by
  have hsel : pickSingleTableTarget none none resp
      = match firstTableRef resp with
        | some t => .fallback t
        | none => .noteNoTables := rfl
  refine ⟨?_, ?_, ?_, ?_, ?_⟩
  · cases hf : firstTableRef resp <;> rw [hsel, hf] <;> simp
  · cases hf : firstTableRef resp <;> rw [hsel, hf] <;> simp
  · intro t hf
    rw [hsel, hf]
  · intro tm rest hresp
    subst hresp
    constructor
    · intro n hn
      unfold firstTableRef
      simp only [Option.getD_some, List.head?_cons, Option.some_bind]
      unfold jsOrStr
      rw [hn]
      exact jsTruthy_some_of_eq_some tm.name n hn
    · intro hn
      unfold firstTableRef
      simp only [Option.getD_some, List.head?_cons, Option.some_bind]
      unfold jsOrStr
      rw [hn]
  · intro hempty
    rw [hsel]
    unfold firstTableRef
    rw [hempty]
    rfl

end AirtableMcp
